import Mathlib

/-!
Shallow embedding of the djt-pas-http-client package (api-client-factory.ts
and crud-client.ts) and proofs about it.

JavaScript runtime values that flow through this code (parsed JSON response
bodies, request parameter records, `undefined`, and Error instances carried
inside a response `body`) are modelled by the inductive type `JsValue`.
JavaScript objects are modelled as association lists of string keys; the
process-wide static `ApiClientFactory.configs` object is modelled as an
explicit association list (`Cache`) threaded through each operation.  The
HTTP transport (the external HttpJsonClient collaborator) is modelled as an
oracle function from a request description to the response body it delivers;
each operation additionally returns the list of requests it issued, so that
fetch-counting properties can be stated.  Thrown exceptions are modelled with
`Except` over the error type `JsError`.
-/

/-- Model of JavaScript values relevant to this code: strings, booleans,
numbers, `undefined`, Error instances (as carried in a response `body`), and
plain objects as association lists of string keys. -/
inductive JsValue where
  | str (s : String)
  | bool (b : Bool)
  | num (n : Int)
  | undefined
  | err (message : String)
  | obj (fields : List (String × JsValue))

/-- Model of `body instanceof Error`. -/
def JsValue.isError : JsValue → Bool
  | .err _ => true
  | _ => false

/-- Model of `typeof v == 'boolean'`. -/
def JsValue.isBool : JsValue → Bool
  | .bool _ => true
  | _ => false

/-- First-match association lookup used by `JsValue.getField`. -/
def lookupField : List (String × JsValue) → String → JsValue
  | [], _ => .undefined
  | (k', v) :: rest, k => if k' = k then v else lookupField rest k

/-- Model of JavaScript property access `v.k`: the field's value on an
object, `undefined` when the key is absent or the value is not an object. -/
def JsValue.getField : JsValue → String → JsValue
  | .obj fields, k => lookupField fields k
  | _, _ => .undefined

/-- Model of the `'k' in v` operator on an object (key presence). -/
def JsValue.hasKey : JsValue → String → Bool
  | .obj fields, k => fields.any (fun p => p.1 == k)
  | _, _ => false

/-- Model of `Object.keys(v).length` for an object. -/
def JsValue.keyCount : JsValue → Nat
  | .obj fields => fields.length
  | _ => 0

/-- Thrown JavaScript exceptions, as this code produces them:
a re-thrown transport `body` that was an Error instance (`thrown`),
a `new Error(message)` (`jsError`), and a djt-app
`new Exception(message, code)` (`exception`). -/
inductive JsError where
  | thrown (body : JsValue)
  | jsError (message : String)
  | exception (message : JsValue) (code : String)

/-- HTTP methods the two classes use. -/
inductive HttpMethod where
  | get | post | head | patch | put

/-- A single request issued through the HttpJsonClient collaborator:
the URL and timeout the client was constructed with, the method of the
`request...` call, and the optional data passed to it. -/
structure HttpRequest where
  url : String
  timeout : Nat
  method : HttpMethod
  data : Option JsValue

/-- An HttpJsonClient instance; this layer only ever configures the URL and
the timeout, so the model carries exactly those. -/
structure HttpJsonClient where
  url : String
  timeout : Nat

/-- The HTTP transport oracle: maps each issued request to the response
`body` it delivers (parsed JSON on success, an Error value on failure). -/
abbrev Transport := HttpRequest → JsValue

/-- The process-wide static object `ApiClientFactory.configs`, modelled as an
association list from namespace to the cached config document. -/
abbrev Cache := List (String × JsValue)

/-- Key lookup in the configs object (model of `ns in configs` /
`configs[ns]`). -/
def lookupCache : Cache → String → Option JsValue
  | [], _ => none
  | (k', v) :: rest, k => if k' = k then some v else lookupCache rest k

/-- Key assignment `configs[ns] = body` on the configs object. -/
def setCache : Cache → String → JsValue → Cache
  | [], k, v => [(k, v)]
  | (k', v') :: rest, k, v =>
      if k' = k then (k, v) :: rest else (k', v') :: setCache rest k v

/-- UTF-8 encoding of one character, as a list of byte values. -/
def utf8Bytes (c : Char) : List Nat :=
  let n := c.toNat
  if n < 128 then [n]
  else if n < 2048 then [192 + n / 64, 128 + n % 64]
  else if n < 65536 then [224 + n / 4096, 128 + n / 64 % 64, 128 + n % 64]
  else [240 + n / 262144, 128 + n / 4096 % 64, 128 + n / 64 % 64, 128 + n % 64]

/-- Bytes left intact by `encodeURIComponent`:
ASCII letters, digits, and `- _ . ! ~ * ' ( )`. -/
def isUnreservedByte (b : Nat) : Bool :=
  (65 ≤ b && b ≤ 90) || (97 ≤ b && b ≤ 122) || (48 ≤ b && b ≤ 57) ||
    b == 45 || b == 95 || b == 46 || b == 33 || b == 126 ||
    b == 42 || b == 39 || b == 40 || b == 41

/-- Uppercase hexadecimal digit for a value below 16. -/
def hexUpper (n : Nat) : Char :=
  if n < 10 then Char.ofNat (48 + n) else Char.ofNat (55 + n)

/-- Percent-encoding of one byte, unless it is unreserved. -/
def encodeByte (b : Nat) : String :=
  if isUnreservedByte b then String.singleton (Char.ofNat b)
  else String.mk ['%', hexUpper (b / 16), hexUpper (b % 16)]

/-- Model of JavaScript `encodeURIComponent`: percent-encode every UTF-8 byte
outside the unreserved set. -/
def encodeURIComponent (s : String) : String :=
  String.join ((s.data.flatMap utf8Bytes).map encodeByte)

/-- An ApiClientFactory instance after construction: `apiNamespace` is stored
percent-encoded, `apiBaseUrl` normalized to end with `/` (see `make`). -/
structure ApiClientFactory where
  apiBaseUrl : String
  apiNamespace : String
  requestedVersion : Option String
  timeout : Nat

/-- The ApiClientFactory constructor: percent-encodes the namespace and
appends a trailing `/` to the base URL when absent; `timeout` defaults
to 30. -/
def ApiClientFactory.make (apiBaseUrl apiNamespace : String)
    (requestedVersion : Option String := none) (timeout : Nat := 30) :
    ApiClientFactory :=
  { apiBaseUrl := if apiBaseUrl.endsWith "/" then apiBaseUrl else apiBaseUrl ++ "/"
    apiNamespace := encodeURIComponent apiNamespace
    requestedVersion := requestedVersion
    timeout := timeout }

/-- The static `API_CONFIG_REQUEST_TIMEOUT` (seconds). -/
def API_CONFIG_REQUEST_TIMEOUT : Nat := 5

/-- The config-discovery URL built inside `getConfig`. -/
def ApiClientFactory.configUrl (f : ApiClientFactory) : String :=
  f.apiBaseUrl ++ ".well-known/pas-" ++ f.apiNamespace ++ "-api/config"

/-- The one request `getConfig` issues on a cache miss: a client constructed
against `configUrl` with the fixed 5-second timeout, then `requestPost` with
the version parameter record when a version was requested, else
`requestGet` with no data. -/
def ApiClientFactory.configRequest (f : ApiClientFactory) : HttpRequest :=
  match f.requestedVersion with
  | some v =>
      { url := f.configUrl
        timeout := API_CONFIG_REQUEST_TIMEOUT
        method := .post
        data := some (.obj [(f.apiNamespace ++ "_version", .str v)]) }
  | none =>
      { url := f.configUrl
        timeout := API_CONFIG_REQUEST_TIMEOUT
        method := .get
        data := none }

/-- `getConfig()`: return the cached config for the namespace; on a miss,
issue the discovery request, re-throw an Error body, otherwise store the body
in the process-wide cache and return it.  The result carries the value or
thrown error, the cache afterwards, and the list of requests issued. -/
def ApiClientFactory.getConfig (f : ApiClientFactory) (t : Transport)
    (configs : Cache) : Except JsError JsValue × Cache × List HttpRequest :=
  match lookupCache configs f.apiNamespace with
  | some v => (.ok v, configs, [])
  | none =>
      let req := f.configRequest
      let body := t req
      if body.isError then (.error (.thrown body), configs, [req])
      else (.ok body, setCache configs f.apiNamespace body, [req])

/-- JavaScript strict equality `v === rv` between a runtime value and a
`string | undefined` variable. -/
def strictEqOptStr : JsValue → Option String → Bool
  | .str s, some v => s == v
  | .undefined, none => true
  | _, _ => false

/-- The `isVersionSupported` getter: fetch the config, then evaluate
`config.version_supported === this.requestedVersion`. -/
def ApiClientFactory.isVersionSupported (f : ApiClientFactory) (t : Transport)
    (configs : Cache) : Except JsError Bool × Cache × List HttpRequest :=
  match f.getConfig t configs with
  | (.ok config, configs', reqs) =>
      (.ok (strictEqOptStr (config.getField "version_supported") f.requestedVersion),
        configs', reqs)
  | (.error e, configs', reqs) => (.error e, configs', reqs)

/-- The leading-slash handling in `createClient`: `startsWith('/')` followed
by `slice(1)`, modelled on the character list of the path. -/
def stripLeadingSlash (endpointPath : String) : String :=
  if endpointPath.data.head? = some '/' then String.mk endpointPath.data.tail
  else endpointPath

/-- `createClient(endpointPath)`: strip at most one leading `/`, then return
a new HttpJsonClient on `apiBaseUrl + endpointPath` with the instance's
general timeout.  Purely a constructor: no transport, no failure. -/
def ApiClientFactory.createClient (f : ApiClientFactory)
    (endpointPath : String) : HttpJsonClient :=
  { url := f.apiBaseUrl ++ stripLeadingSlash endpointPath
    timeout := f.timeout }

/-- `createVerifiedClient(endpointPath)`: await `isVersionSupported`; throw
`new Error('APP_VERSION_NOT_SUPPORTED')` when it is false, else delegate to
`createClient`. -/
def ApiClientFactory.createVerifiedClient (f : ApiClientFactory)
    (t : Transport) (configs : Cache) (endpointPath : String) :
    Except JsError HttpJsonClient × Cache × List HttpRequest :=
  match f.isVersionSupported t configs with
  | (.ok supported, configs', reqs) =>
      if supported then (.ok (f.createClient endpointPath), configs', reqs)
      else (.error (.jsError "APP_VERSION_NOT_SUPPORTED"), configs', reqs)
  | (.error e, configs', reqs) => (.error e, configs', reqs)

/-- ASCII uppercase letter test, as the regex character class `[A-Z]`. -/
def isAsciiUpper (c : Char) : Bool := 'A' ≤ c && c ≤ 'Z'

/-- The regex character class `[a-z0-9]`. -/
def isLowerDigit (c : Char) : Bool :=
  ('a' ≤ c && c ≤ 'z') || ('0' ≤ c && c ≤ '9')

/-- Model of `String.prototype.toLowerCase` on the ASCII range the endpoint
segments use. -/
def toLowerJs (c : Char) : Char :=
  if isAsciiUpper c then Char.ofNat (c.toNat + 32) else c

/-- Length of the maximal run of `[A-Z]` characters at the front of the
list. -/
def upperRunLength : List Char → Nat
  | [] => 0
  | c :: cs => if isAsciiUpper c then upperRunLength cs + 1 else 0

/-- One attempt to match the (non-global) regex
`([A-Z]+|[a-z0-9])([A-Z])(?!$)` at the start of `l`, with JavaScript's
greedy backtracking semantics.  On success it returns
`(group1, group2, rest after group2)`.

The `[A-Z]+` alternative with backtracking settles on the longest possible
group1, i.e. `min (run - 1) (len - 2)` uppercase characters where `run` is
the uppercase run length at the front and `len` the remaining string length
(the `- 1` keeps one uppercase for group2, the `- 2` keeps group2 off the
final position so that the `(?!$)` lookahead holds).  When that alternative
cannot apply, the single-character `[a-z0-9]` alternative is tried. -/
def camelMatchAt (l : List Char) : Option (List Char × Char × List Char) :=
  if 2 ≤ upperRunLength l ∧ 3 ≤ l.length then
    match l.drop (min (upperRunLength l - 1) (l.length - 2)) with
    | g2 :: rest => some (l.take (min (upperRunLength l - 1) (l.length - 2)), g2, rest)
    | [] => none
  else
    match l with
    | c0 :: c1 :: c2 :: rest =>
        if isLowerDigit c0 && isAsciiUpper c1 then some ([c0], c1, c2 :: rest)
        else none
    | _ => none

/-- `String.prototype.replace` with the non-global regex above and the
replacement `'$1_$2'`: scan left to right for the first position where the
pattern matches, insert one underscore there, leave everything else (and in
particular every later position) unchanged. -/
def camelReplace : List Char → List Char
  | [] => []
  | c :: cs =>
      match camelMatchAt (c :: cs) with
      | some (g1, g2, rest) => g1 ++ '_' :: g2 :: rest
      | none => c :: camelReplace cs

/-- The per-segment transformation applied inside `getEndpointFromSubPath`:
the single-match camelCase underscore insertion followed by lowercasing. -/
def snakeSegment (s : String) : String :=
  String.mk ((camelReplace s.data).map toLowerJs)

/-- The `subPath?: string | string[]` argument of the CrudClient
operations: absent, a single string, or an array of strings. -/
inductive SubPath where
  | undefined
  | single (s : String)
  | list (l : List String)

/-- A CrudClient instance after construction: `entity` is stored
percent-encoded, and the owned factory uses the fixed namespace `crud`
(see `CrudClient.make`). -/
structure CrudClient where
  entity : String
  apiClientFactory : ApiClientFactory

/-- The CrudClient constructor. -/
def CrudClient.make (apiBaseUrl entity : String)
    (requestedVersion : Option String := none) (timeout : Nat := 30) :
    CrudClient :=
  { entity := encodeURIComponent entity
    apiClientFactory := ApiClientFactory.make apiBaseUrl "crud" requestedVersion timeout }

/-- `getEndpointFromSubPath(subPath)`: normalize the argument to an array,
unshift the entity, map every segment through the single-match snake_case
transformation, unshift `apis`, `pas`, `crud`, and join with `/`. -/
def CrudClient.getEndpointFromSubPath (c : CrudClient) (subPath : SubPath) :
    String :=
  let segs : List String :=
    match subPath with
    | .undefined => []
    | .single s => [s]
    | .list l => l
  "/".intercalate ("apis" :: "pas" :: "crud" :: (c.entity :: segs).map snakeSegment)

/-- `getEndpointFromSubPath` as observed by a caller that passed an array:
`subPath.unshift(this.entity)` mutates the caller's array in place, while
the later `map` and the second `unshift` build fresh arrays the caller never
sees.  The second component is the caller's array after the call. -/
def CrudClient.getEndpointFromSubPathArray (c : CrudClient)
    (arr : List String) : String × List String :=
  let callerArray := c.entity :: arr
  ("/".intercalate ("apis" :: "pas" :: "crud" :: callerArray.map snakeSegment),
    callerArray)

/-- `handleResponse(response)`: re-throw an Error body; throw
`new Exception(body.error.message, 'CRUD_ERROR')` when the body has an
`error` key and exactly one key; otherwise return the body. -/
def handleResponse (body : JsValue) : Except JsError JsValue :=
  if body.isError then .error (.thrown body)
  else if body.hasKey "error" && body.keyCount == 1 then
    .error (.exception ((body.getField "error").getField "message") "CRUD_ERROR")
  else .ok body

/-- The unwrapping step at the end of `isValid`: when the normalized body
has a `success` key of boolean type, return that boolean value, otherwise
return the body unchanged. -/
def successUnwrap (body : JsValue) : JsValue :=
  if body.hasKey "success" && (body.getField "success").isBool then
    body.getField "success"
  else body

/-- The HEAD request `isValid` issues through its verified client. -/
def headRequest (client : HttpJsonClient) (data : Option JsValue) : HttpRequest :=
  { url := client.url, timeout := client.timeout, method := .head, data := data }

/-- `isValid(subPath?, data?)`: derive the endpoint, obtain a verified
client, issue one HEAD request, normalize the response, and unwrap a boolean
`success` field. -/
def CrudClient.isValid (c : CrudClient) (t : Transport) (configs : Cache)
    (subPath : SubPath) (data : Option JsValue) :
    Except JsError JsValue × Cache × List HttpRequest :=
  match c.apiClientFactory.createVerifiedClient t configs
      (c.getEndpointFromSubPath subPath) with
  | (.ok client, configs', reqs) =>
      match handleResponse (t (headRequest client data)) with
      | .ok body => (.ok (successUnwrap body), configs', reqs ++ [headRequest client data])
      | .error e => (.error e, configs', reqs ++ [headRequest client data])
  | (.error e, configs', reqs) => (.error e, configs', reqs)

/-- A transport oracle used to instantiate theorems at concrete inputs:
every request is answered with an empty-record body. -/
def transportEmptyBody : Transport := fun _ => .obj []

/-- A transport oracle used to instantiate theorems at concrete inputs:
every request is answered with a config advertising version support. -/
def transportVersionOne : Transport :=
  fun _ => .obj [("version_supported", .str "1")]

/-- A transport oracle used to instantiate theorems at concrete inputs:
every request fails with an Error body. -/
def transportFailing : Transport := fun _ => .err "boom"

/-! ### Helper lemmas -/

theorem lookupCache_setCache (cs : Cache) (k k' : String) (v : JsValue) :
    lookupCache (setCache cs k v) k' = if k = k' then some v else lookupCache cs k' := by
  induction cs with
  | nil => simp [setCache, lookupCache]
  | cons p rest ih =>
    obtain ⟨k0, v0⟩ := p
    by_cases h0 : k0 = k
    · subst h0
      by_cases h1 : k0 = k' <;> simp [setCache, lookupCache, h1]
    · by_cases h1 : k0 = k'
      · subst h1
        simp [setCache, lookupCache, h0, ih]
        rw [if_neg (fun h => h0 h.symm)]
      · simp [setCache, lookupCache, h0, h1, ih]

/-- A successful regex match reassembles the input: group1, then group2,
then the rest. -/
theorem camelMatchAt_eq {l g1 : List Char} {g2 : Char} {rest : List Char}
    (h : camelMatchAt l = some (g1, g2, rest)) : l = g1 ++ g2 :: rest := by
  unfold camelMatchAt at h
  split at h
  · split at h
    · rename_i hdrop
      simp only [Option.some.injEq, Prod.mk.injEq] at h
      obtain ⟨h1, h2, h3⟩ := h
      subst h1; subst h2; subst h3
      conv_lhs => rw [← List.take_append_drop (min (upperRunLength l - 1) (l.length - 2)) l]
      rw [hdrop]
    · exact absurd h (by simp)
  · split at h
    · split at h
      · simp only [Option.some.injEq, Prod.mk.injEq] at h
        obtain ⟨h1, h2, h3⟩ := h
        subst h1; subst h2; subst h3
        rfl
      · exact absurd h (by simp)
    · exact absurd h (by simp)

/-- The non-global replace inserts at most one underscore. -/
theorem count_camelReplace (l : List Char) :
    (camelReplace l).count '_' ≤ l.count '_' + 1 := by
  induction l with
  | nil => simp [camelReplace]
  | cons c cs ih =>
    rw [camelReplace]
    cases h : camelMatchAt (c :: cs) with
    | none =>
      simp only [List.count_cons]
      omega
    | some t =>
      obtain ⟨g1, g2, rest⟩ := t
      rw [camelMatchAt_eq h]
      simp [List.count_append, List.count_cons]
      omega

theorem stripLeadingSlash_append (p : String) :
    stripLeadingSlash ("/" ++ p) = p := by
  cases p with
  | mk l => simp [stripLeadingSlash]

/-! ### Claim theorems -/

/-- Claim C2: `getEndpointFromSubPath` normalizes the optional sub-path into a
sequence (empty, singleton, or the given list), prepends the stored entity
segment, applies per segment exactly one application of the first-match
camelCase underscore-insertion rewrite (at most one underscore is inserted) followed
by lowercasing, prepends the fixed segments `apis`, `pas`, `crud`, and joins
with `/`; entity `UserAccount` with sub-path `getProfile` yields
`apis/pas/crud/user_account/get_profile`. -/
theorem getEndpointFromSubPath_spec (c : CrudClient) (s : String) (l : List String) :
    c.getEndpointFromSubPath .undefined
        = "/".intercalate ("apis" :: "pas" :: "crud" :: (c.entity :: []).map snakeSegment)
    ∧ c.getEndpointFromSubPath (.single s)
        = "/".intercalate ("apis" :: "pas" :: "crud" :: (c.entity :: [s]).map snakeSegment)
    ∧ c.getEndpointFromSubPath (.list l)
        = "/".intercalate ("apis" :: "pas" :: "crud" :: (c.entity :: l).map snakeSegment)
    ∧ (∀ seg : List Char, (camelReplace seg).count '_' ≤ seg.count '_' + 1)
    ∧ (CrudClient.make "http://x" "UserAccount").getEndpointFromSubPath
          (.list ["getProfile"])
        = "apis/pas/crud/user_account/get_profile" :=
  ⟨rfl, rfl, rfl, count_camelReplace, rfl⟩

/-- Claim C7: `createClient` strips at most one leading slash from the
endpoint path and concatenates the remainder onto the normalized base URL
with the instance's general timeout; it is a pure constructor, so
`createClient` on `/foo/bar` and on `foo/bar` produce identical clients. -/
theorem createClient_leading_slash (b ns p : String) (rv : Option String)
    (tmo : Nat) (hp : p.data.head? ≠ some '/') :
    (ApiClientFactory.make b ns rv tmo).createClient ("/" ++ p)
        = (ApiClientFactory.make b ns rv tmo).createClient p
    ∧ (ApiClientFactory.make b ns rv tmo).createClient p
        = { url := (ApiClientFactory.make b ns rv tmo).apiBaseUrl ++ p, timeout := tmo }
    ∧ (ApiClientFactory.make b ns rv tmo).createClient "/foo/bar"
        = (ApiClientFactory.make b ns rv tmo).createClient "foo/bar" := by
  have hstrip : stripLeadingSlash p = p := by
    unfold stripLeadingSlash
    rw [if_neg hp]
  refine ⟨?_, ?_, ?_⟩
  · simp [ApiClientFactory.createClient, stripLeadingSlash_append, hstrip]
  · simp [ApiClientFactory.createClient, hstrip, ApiClientFactory.make]
  · simp [ApiClientFactory.createClient]
    rfl

/-- Witness for claim C7 at concrete inputs. -/
theorem createClient_leading_slash_witness :
    (ApiClientFactory.make "http://x" "crud" none 30).createClient "foo/bar"
      = { url := (ApiClientFactory.make "http://x" "crud" none 30).apiBaseUrl
            ++ "foo/bar",
          timeout := 30 } :=
  (createClient_leading_slash "http://x" "crud" "foo/bar" none 30
    (by simp)).2.1

/-- Claim C9: when an array is passed as the sub-path, the `unshift` inside
`getEndpointFromSubPath` mutates the caller's array in place: afterwards the
caller's array is the percent-encoded entity name followed by its previous
elements (one element longer), while the derived endpoint agrees with the
ordinary derivation and the client's fields are untouched. -/
theorem getEndpoint_array_effect (b e : String) (rv : Option String)
    (tmo : Nat) (arr : List String) :
    ((CrudClient.make b e rv tmo).getEndpointFromSubPathArray arr).2
        = encodeURIComponent e :: arr
    ∧ ((CrudClient.make b e rv tmo).getEndpointFromSubPathArray arr).2.length
        = arr.length + 1
    ∧ ((CrudClient.make b e rv tmo).getEndpointFromSubPathArray arr).1
        = (CrudClient.make b e rv tmo).getEndpointFromSubPath (.list arr)
    ∧ (CrudClient.make b e rv tmo).entity = encodeURIComponent e :=
  ⟨rfl, by simp [CrudClient.getEndpointFromSubPathArray], rfl, rfl⟩

/-- A response body that `handleResponse` returns is returned unchanged. -/
theorem handleResponse_ok_eq {x y : JsValue} (h : handleResponse x = .ok y) : y = x := by
  unfold handleResponse at h
  split at h
  · exact absurd h (by simp)
  · split at h
    · exact absurd h (by simp)
    · injection h with h'
      exact h'.symm

/-- Claim C3: on a body that is not an Error value, `handleResponse` throws
the structured `CRUD_ERROR` exception carrying `body.error.message` exactly
when the body is a record whose only key is `error`; a body with an `error`
key next to any other key is returned as-is. -/
theorem handleResponse_error_record (body : JsValue) (hnb : body.isError = false) :
    (∀ v, body = .obj [("error", v)] →
        handleResponse body = .error (.exception (v.getField "message") "CRUD_ERROR"))
    ∧ ((∀ v, body ≠ .obj [("error", v)]) → handleResponse body = .ok body)
    ∧ handleResponse (.obj [("error", .obj [("message", .str "bad")])])
        = .error (.exception (.str "bad") "CRUD_ERROR")
    ∧ handleResponse (.obj [("error", .obj [("message", .str "bad")]), ("extra", .num 1)])
        = .ok (.obj [("error", .obj [("message", .str "bad")]), ("extra", .num 1)]) := by
  refine ⟨?_, ?_, rfl, rfl⟩
  · rintro v rfl
    rfl
  · intro hne
    have hcond : (body.hasKey "error" && body.keyCount == 1) = false := by
      cases body with
      | obj fields =>
        match fields with
        | [] => simp [JsValue.hasKey, JsValue.keyCount]
        | [(k, v)] =>
          by_cases hk : k = "error"
          · subst hk
            exact absurd rfl (hne v)
          · simp [JsValue.hasKey, JsValue.keyCount, hk]
        | p :: q :: rest => simp [JsValue.keyCount]
      | str s => rfl
      | bool b2 => rfl
      | num n => rfl
      | undefined => rfl
      | err m => rfl
    simp [handleResponse, hnb, hcond]

/-- Witness for claim C3 at a concrete body. -/
theorem handleResponse_error_record_witness :
    handleResponse (.obj [("error", .obj [("message", .str "bad")])])
      = .error (.exception (.str "bad") "CRUD_ERROR") :=
  (handleResponse_error_record (.obj [("error", .obj [("message", .str "bad")])])
    rfl).2.2.1

/-- Claim C8: the unwrapping step of `isValid` returns the bare boolean value
of the `success` field exactly when the normalized body has a `success` key
of boolean type, and otherwise returns the normalized body unchanged; a
record with `success: true` unwraps while `success: "yes"` stays unchanged,
and every successful `isValid` result is the unwrapping of the normalized
response body. -/
theorem isValid_success_unwrap (body : JsValue) :
    ((body.hasKey "success" && (body.getField "success").isBool) = true →
        successUnwrap body = body.getField "success")
    ∧ ((body.hasKey "success" && (body.getField "success").isBool) = false →
        successUnwrap body = body)
    ∧ successUnwrap (.obj [("success", .bool true)]) = .bool true
    ∧ successUnwrap (.obj [("success", .str "yes")]) = .obj [("success", .str "yes")]
    ∧ (∀ (c : CrudClient) (t : Transport) (cfgs : Cache) (sp : SubPath)
          (d : Option JsValue) (v : JsValue) (cfgs' : Cache) (reqs : List HttpRequest),
        c.isValid t cfgs sp d = (.ok v, cfgs', reqs) →
        ∃ b, handleResponse b = .ok b ∧ v = successUnwrap b) := by
  refine ⟨?_, ?_, rfl, rfl, ?_⟩
  · intro h
    simp [successUnwrap, h]
  · intro h
    simp [successUnwrap, h]
  · intro c t cfgs sp d v cfgs' reqs hiv
    unfold CrudClient.isValid at hiv
    rcases hcv : c.apiClientFactory.createVerifiedClient t cfgs
        (c.getEndpointFromSubPath sp) with ⟨res, cs1, reqs1⟩
    rw [hcv] at hiv
    cases res with
    | error e => simp at hiv
    | ok client =>
      dsimp only at hiv
      cases hhr : handleResponse (t (headRequest client d)) with
      | error e =>
        rw [hhr] at hiv
        simp at hiv
      | ok b =>
        rw [hhr] at hiv
        simp only [Prod.mk.injEq, Except.ok.injEq] at hiv
        obtain ⟨hv, _, _⟩ := hiv
        refine ⟨b, ?_, hv.symm⟩
        have hb := handleResponse_ok_eq hhr
        rw [← hb] at hhr
        exact hhr

/-- Witness for claim C8 at a concrete body. -/
theorem isValid_success_unwrap_witness :
    successUnwrap (.obj [("success", .bool true)])
      = (JsValue.obj [("success", .bool true)]).getField "success" :=
  (isValid_success_unwrap (.obj [("success", .bool true)])).1 rfl

/-- Claim C1: on a cache miss `getConfig` issues the discovery fetch and, on
a non-error body, stores it in the process-wide cache under the namespace;
while an entry is cached, `getConfig` on any factory sharing that namespace
issues no request and returns the cached value; and `getConfig` never
removes or overwrites an existing cache entry. -/
theorem getConfig_cache_semantics (f g : ApiClientFactory) (t t' : Transport)
    (cs : Cache) (v : JsValue) (hns : g.apiNamespace = f.apiNamespace) :
    (lookupCache cs f.apiNamespace = none → (t f.configRequest).isError = false →
        f.getConfig t cs
          = (.ok (t f.configRequest), setCache cs f.apiNamespace (t f.configRequest),
              [f.configRequest]))
    ∧ (lookupCache cs f.apiNamespace = some v →
        g.getConfig t' cs = (.ok v, cs, []))
    ∧ (∀ k w, lookupCache cs k = some w →
        lookupCache (f.getConfig t cs).2.1 k = some w) := by
  refine ⟨?_, ?_, ?_⟩
  · intro hmiss herr
    simp [ApiClientFactory.getConfig, hmiss, herr]
  · intro hhit
    simp [ApiClientFactory.getConfig, hns, hhit]
  · intro k w hk
    cases hmiss : lookupCache cs f.apiNamespace with
    | some u => simp [ApiClientFactory.getConfig, hmiss, hk]
    | none =>
      have hne : f.apiNamespace ≠ k := by
        intro h
        rw [h, hk] at hmiss
        exact Option.noConfusion hmiss
      simp only [ApiClientFactory.getConfig, hmiss]
      split
      · exact hk
      · simp only [lookupCache_setCache]
        rw [if_neg hne]
        exact hk

/-- Witness for claim C1: a second factory sharing the namespace returns the
cached entry with no fetch. -/
theorem getConfig_cache_semantics_witness :
    (ApiClientFactory.make "http://y/" "ns" (some "1") 7).getConfig transportEmptyBody
        [("ns", JsValue.bool true)]
      = (.ok (.bool true), [("ns", JsValue.bool true)], []) :=
  (getConfig_cache_semantics (ApiClientFactory.make "http://x" "ns" none 30)
    (ApiClientFactory.make "http://y/" "ns" (some "1") 7) transportEmptyBody
    transportEmptyBody [("ns", JsValue.bool true)] (.bool true) rfl).2.1 rfl

/-- Claim C4: `createVerifiedClient` propagates a config-fetch failure
unchanged, throws the `APP_VERSION_NOT_SUPPORTED` error exactly on a version
check returning false, and otherwise returns the client that `createClient`
builds for the path; the version error is a distinct value from every
re-thrown transport error and from every `CRUD_ERROR` exception. -/
theorem createVerifiedClient_spec (f : ApiClientFactory) (t : Transport)
    (cs : Cache) (p : String) :
    (∀ supported cs' reqs, f.isVersionSupported t cs = (.ok supported, cs', reqs) →
        f.createVerifiedClient t cs p
          = (if supported then (.ok (f.createClient p), cs', reqs)
             else (.error (.jsError "APP_VERSION_NOT_SUPPORTED"), cs', reqs)))
    ∧ (∀ e cs' reqs, f.isVersionSupported t cs = (.error e, cs', reqs) →
        f.createVerifiedClient t cs p = (.error e, cs', reqs))
    ∧ (∀ config cs' reqs, f.getConfig t cs = (.ok config, cs', reqs) →
        strictEqOptStr (config.getField "version_supported") f.requestedVersion = false →
        f.createVerifiedClient t cs p
          = (.error (.jsError "APP_VERSION_NOT_SUPPORTED"), cs', reqs))
    ∧ (∀ config cs' reqs, f.getConfig t cs = (.ok config, cs', reqs) →
        strictEqOptStr (config.getField "version_supported") f.requestedVersion = true →
        f.createVerifiedClient t cs p = (.ok (f.createClient p), cs', reqs))
    ∧ (∀ body, JsError.jsError "APP_VERSION_NOT_SUPPORTED" ≠ JsError.thrown body)
    ∧ (∀ m c, JsError.jsError "APP_VERSION_NOT_SUPPORTED" ≠ JsError.exception m c) := by
  refine ⟨?_, ?_, ?_, ?_, ?_, ?_⟩
  · intro supported cs' reqs h
    simp only [ApiClientFactory.createVerifiedClient, h]
  · intro e cs' reqs h
    simp only [ApiClientFactory.createVerifiedClient, h]
  · intro config cs' reqs h hfalse
    have hivs : f.isVersionSupported t cs = (.ok false, cs', reqs) := by
      simp [ApiClientFactory.isVersionSupported, h, hfalse]
    simp [ApiClientFactory.createVerifiedClient, hivs]
  · intro config cs' reqs h htrue
    have hivs : f.isVersionSupported t cs = (.ok true, cs', reqs) := by
      simp [ApiClientFactory.isVersionSupported, h, htrue]
    simp [ApiClientFactory.createVerifiedClient, hivs]
  · intro body h
    exact JsError.noConfusion h
  · intro m c h
    exact JsError.noConfusion h

/-- Witness for claim C4: a supported version yields the `createClient`
client. -/
theorem createVerifiedClient_spec_witness :
    (ApiClientFactory.make "http://x" "ns" (some "1") 30).createVerifiedClient
        transportEmptyBody [("ns", JsValue.obj [("version_supported", JsValue.str "1")])]
        "ep"
      = (.ok ((ApiClientFactory.make "http://x" "ns" (some "1") 30).createClient "ep"),
          [("ns", JsValue.obj [("version_supported", JsValue.str "1")])], []) :=
  (createVerifiedClient_spec (ApiClientFactory.make "http://x" "ns" (some "1") 30)
    transportEmptyBody [("ns", JsValue.obj [("version_supported", JsValue.str "1")])]
    "ep").2.2.2.1
    (JsValue.obj [("version_supported", JsValue.str "1")])
    [("ns", JsValue.obj [("version_supported", JsValue.str "1")])] [] rfl rfl

/-- Claim C5: `isVersionSupported` returns exactly the strict-equality
comparison of the fetched config's `version_supported` field against the
requested version; under strict equality the comparison against an absent
requested version holds exactly when the field is `undefined`, and against a
requested string exactly when the field is that string - no truthiness. -/
theorem isVersionSupported_strict (f : ApiClientFactory) (t : Transport) (cs : Cache) :
    (∀ config cs' reqs, f.getConfig t cs = (.ok config, cs', reqs) →
        f.isVersionSupported t cs
          = (.ok (strictEqOptStr (config.getField "version_supported") f.requestedVersion),
              cs', reqs))
    ∧ (∀ e cs' reqs, f.getConfig t cs = (.error e, cs', reqs) →
        f.isVersionSupported t cs = (.error e, cs', reqs))
    ∧ (∀ w : JsValue, strictEqOptStr w none = true ↔ w = .undefined)
    ∧ (∀ (w : JsValue) (s : String), strictEqOptStr w (some s) = true ↔ w = .str s) := by
  refine ⟨?_, ?_, ?_, ?_⟩
  · intro config cs' reqs h
    simp [ApiClientFactory.isVersionSupported, h]
  · intro e cs' reqs h
    simp [ApiClientFactory.isVersionSupported, h]
  · intro w
    cases w <;> simp [strictEqOptStr]
  · intro w s
    cases w <;> simp [strictEqOptStr]

/-- Witness for claim C5 at a cached config. -/
theorem isVersionSupported_strict_witness :
    (ApiClientFactory.make "http://x" "ns" (some "1") 30).isVersionSupported
        transportEmptyBody [("ns", JsValue.obj [("version_supported", JsValue.str "1")])]
      = (.ok (strictEqOptStr
            ((JsValue.obj [("version_supported", JsValue.str "1")]).getField
              "version_supported")
            (ApiClientFactory.make "http://x" "ns" (some "1") 30).requestedVersion),
          [("ns", JsValue.obj [("version_supported", JsValue.str "1")])], []) :=
  (isVersionSupported_strict (ApiClientFactory.make "http://x" "ns" (some "1") 30)
    transportEmptyBody [("ns", JsValue.obj [("version_supported", JsValue.str "1")])]).1
    (JsValue.obj [("version_supported", JsValue.str "1")])
    [("ns", JsValue.obj [("version_supported", JsValue.str "1")])] [] rfl

/-- Claim C6: on a cache miss `getConfig` issues exactly one request, against
the `.well-known/pas-` namespace `-api/config` URL relative to the base URL,
with the fixed 5-second timeout for every instance timeout; the request is a
POST carrying the namespace-version record exactly when a version was
requested, and otherwise a GET with no data. -/
theorem getConfig_fetch_protocol (b ns : String) (rv : Option String) (tmo : Nat)
    (t : Transport) (cs : Cache)
    (hmiss : lookupCache cs (ApiClientFactory.make b ns rv tmo).apiNamespace = none) :
    ((ApiClientFactory.make b ns rv tmo).getConfig t cs).2.2
        = [(ApiClientFactory.make b ns rv tmo).configRequest]
    ∧ (ApiClientFactory.make b ns rv tmo).configRequest.url
        = (ApiClientFactory.make b ns rv tmo).apiBaseUrl ++ ".well-known/pas-"
            ++ encodeURIComponent ns ++ "-api/config"
    ∧ (ApiClientFactory.make b ns rv tmo).configRequest.timeout = 5
    ∧ (∀ vv, rv = some vv →
        (ApiClientFactory.make b ns rv tmo).configRequest.method = .post
        ∧ (ApiClientFactory.make b ns rv tmo).configRequest.data
            = some (.obj [(encodeURIComponent ns ++ "_version", .str vv)]))
    ∧ (rv = none →
        (ApiClientFactory.make b ns rv tmo).configRequest.method = .get
        ∧ (ApiClientFactory.make b ns rv tmo).configRequest.data = none) := by
  refine ⟨?_, ?_, ?_, ?_, ?_⟩
  · simp only [ApiClientFactory.getConfig, hmiss]
    split <;> rfl
  · cases rv <;> rfl
  · cases rv <;> rfl
  · rintro vv rfl
    exact ⟨rfl, rfl⟩
  · rintro rfl
    exact ⟨rfl, rfl⟩

/-- Witness for claim C6: the discovery timeout is the fixed 5 seconds. -/
theorem getConfig_fetch_protocol_witness :
    (ApiClientFactory.make "http://x" "crud" none 30).configRequest.timeout = 5 :=
  (getConfig_fetch_protocol "http://x" "crud" none 30 transportEmptyBody [] rfl).2.2.1

/-- Claim C10: when the config fetch fails, the Error body is re-thrown and
the process-wide cache is left unchanged, so a later `getConfig` call on the
same cache state attempts the network fetch again. -/
theorem getConfig_error_leaves_cache (f : ApiClientFactory) (t t' : Transport)
    (cs : Cache)
    (hmiss : lookupCache cs f.apiNamespace = none)
    (herr : (t f.configRequest).isError = true) :
    f.getConfig t cs = (.error (.thrown (t f.configRequest)), cs, [f.configRequest])
    ∧ (f.getConfig t' cs).2.2 = [f.configRequest] := by
  constructor
  · simp [ApiClientFactory.getConfig, hmiss, herr]
  · simp only [ApiClientFactory.getConfig, hmiss]
    split <;> rfl

/-- Witness for claim C10 on a failing transport. -/
theorem getConfig_error_leaves_cache_witness :
    (ApiClientFactory.make "http://x" "ns" none 30).getConfig transportFailing []
      = (.error (.thrown (transportFailing
            (ApiClientFactory.make "http://x" "ns" none 30).configRequest)), [],
          [(ApiClientFactory.make "http://x" "ns" none 30).configRequest]) :=
  (getConfig_error_leaves_cache (ApiClientFactory.make "http://x" "ns" none 30)
    transportFailing transportFailing [] rfl rfl).1
